import Mathlib

/-!
Video upload pipeline: a shallow embedding of `handler_upload_video.go` and
`presign_videos.go`.

Go strings are Lean `String`s; where a proof looks at single characters it goes
through `String.data`.  Go `int` is the 64-bit two's-complement integer, embedded
as `Int` with results wrapped into `[-2^63, 2^63)`.  Calls that leave the package
(the file system, the `ffprobe`/`ffmpeg` subprocesses, the object store, the
database, the request parser) take their outcome from an `Env` record.  The calls
of the pipeline, from `rand.Read` on, are appended to the trace of the `World`
they run in; the multipart reader, which runs before them, acts on the file system
of the `World` only.
-/

namespace VideoUpload

/-! ## Go runtime -/

deriving instance DecidableEq for Except

/-- Result of running a Go function body: it returns a value, or a run-time panic
unwinds the stack (deferred calls still run). -/
inductive GoResult (α : Type) where
  | ret : α → GoResult α
  | panic : String → GoResult α
  deriving DecidableEq, Repr

/-- Wrap an integer into the range of Go's 64-bit `int`. -/
def wrapInt (x : Int) : Int := (x + 2 ^ 63) % 2 ^ 64 - 2 ^ 63

/-- Go's `/` on `int` with a non-zero divisor: the quotient truncated toward zero,
wrapped to 64 bits. -/
def goDiv (a b : Int) : Int := wrapInt (Int.tdiv a b)

/-- Go's `strings.Split(s, sep)` for a separator of one character. -/
def stringsSplit (s : String) (sep : Char) : List String :=
  (s.data.splitOn sep).map String.mk

/-! ## `encoding/base64`, `RawURLEncoding` -/

/-- The URL-safe alphabet `encodeURL` of `encoding/base64`. -/
def encodeURL : String :=
  "ABCDEFGHIJKLMNOPQRSTUVWXYZabcdefghijklmnopqrstuvwxyz0123456789-_"

/-- The table lookup `enc.encode[v & 0x3F]`. -/
def encodeChar (v : Nat) : Char := encodeURL.data.getD (v &&& 0x3F) 'A'

/-- The encoder `base64.RawURLEncoding.EncodeToString` on the byte values of the source: whole
groups of three bytes give four characters, a remainder of two bytes gives three
characters and a remainder of one byte gives two; no padding is written. -/
def rawURLEncode : List Nat → List Char
  | b0 :: b1 :: b2 :: rest =>
    let val := b0 <<< 16 ||| b1 <<< 8 ||| b2
    encodeChar (val >>> 18) :: encodeChar (val >>> 12) :: encodeChar (val >>> 6) ::
      encodeChar val :: rawURLEncode rest
  | [b0, b1] =>
    let val := b0 <<< 16 ||| b1 <<< 8
    [encodeChar (val >>> 18), encodeChar (val >>> 12), encodeChar (val >>> 6)]
  | [b0] =>
    let val := b0 <<< 16
    [encodeChar (val >>> 18), encodeChar (val >>> 12)]
  | [] => []

/-- The eight bits of a byte, most significant first. -/
def byteBits (b : Nat) : List Nat :=
  [b / 128 % 2, b / 64 % 2, b / 32 % 2, b / 16 % 2, b / 8 % 2, b / 4 % 2, b / 2 % 2, b % 2]

/-- The bits of a byte sequence, in order. -/
def bitStream : List Nat → List Nat
  | [] => []
  | b :: rest => byteBits b ++ bitStream rest

/-- The number a group of bits denotes, most significant bit first. -/
def bitsValue (bs : List Nat) : Nat := bs.foldl (fun acc b => 2 * acc + b) 0

/-- The groups of six bits of a bit stream; a last group of fewer bits is filled
up with zero bits. -/
def sextets : List Nat → List (List Nat)
  | a :: b :: c :: d :: e :: f :: rest => [a, b, c, d, e, f] :: sextets rest
  | [] => []
  | short => [(short ++ [0, 0, 0, 0, 0]).take 6]

/-- The unpadded URL-safe base64 text of a byte sequence, as defined: one alphabet
character for each group of six bits. -/
def specBase64URL (r : List Nat) : List Char :=
  (sextets (bitStream r)).map (fun g => encodeURL.data.getD (bitsValue g) 'A')

/-! ## `getVideoOrientation` -/

/-- One element of `VideoStream.Streams`.  The fields hold values of Go's `int`;
a field missing from the JSON keeps the zero value. -/
structure Stream where
  Width : Int := 0
  Height : Int := 0
  deriving DecidableEq, Repr

/-- The local type `VideoStream` of `getVideoOrientation`. -/
structure VideoStream where
  Streams : List Stream := []
  deriving DecidableEq, Repr

/-- What running `ffprobe` and decoding its standard output yields. -/
inductive ProbeOutcome where
  | runError : String → ProbeOutcome
  | unmarshalError : String → ProbeOutcome
  | parsed : VideoStream → ProbeOutcome
  deriving DecidableEq, Repr

/-- The function `getVideoOrientation`, given the outcome of the probe on `filePath`.  The Go
pair `(string, error)` is `Except`: `.error msg` stands for `("", err)`. -/
def getVideoOrientation (probe : ProbeOutcome) : GoResult (Except String String) :=
  match probe with
  | .runError e => .ret (.error e)
  | .unmarshalError e => .ret (.error e)
  | .parsed videoStream =>
    match videoStream.Streams with
    | [] => .ret (.error "no streams found")
    | s0 :: _ =>
      if s0.Height = 0 then .panic "runtime error: integer divide by zero"
      else
        let aspectRatio := goDiv s0.Width s0.Height
        if aspectRatio = goDiv 16 9 then .ret (.ok "landscape")
        else if aspectRatio = goDiv 9 16 then .ret (.ok "portrait")
        else .ret (.ok "other")

/-! ## Collaborators of the handler -/

/-- Modelled from the spec: `database.Video` of the persistence collaborator, with
the fields the two source files read or write (the record identifier, its owner and
the stored reference, a nullable string). -/
structure Video where
  ID : Nat
  UserID : Nat
  VideoURL : Option String
  deriving DecidableEq, Repr

/-- The zero value `database.Video{}`. -/
def Video.empty : Video := ⟨0, 0, none⟩

/-- Modelled from the spec: what `respondWithError` (a status code and a safe
human-readable message) or `respondWithJSON` (a status code and the video) writes
to the client; both helpers live outside the two source files. -/
inductive Response where
  | error : Nat → String → Response
  | json : Nat → Video → Response
  deriving DecidableEq, Repr

/-- Modelled from the spec: the fields of `apiConfig` the two source files read
(the struct is declared outside them).  Its `db` and `s3Client` are the `db` and
`store` of the `World`. -/
structure apiConfig where
  jwtSecret : String
  s3Bucket : String
  s3CfDistribution : String
  deriving DecidableEq, Repr

/-- A file part of a multipart form: its size in bytes and its `Content-Type`
header. -/
structure Upload where
  size : Nat
  contentType : String
  deriving DecidableEq, Repr

/-- How a run of `ffmpeg` ends: with exit status 0 and the output file written, or
with an error, having left a partial output file behind or not. -/
inductive RemuxOutcome where
  | ok : RemuxOutcome
  | failed : Bool → RemuxOutcome
  deriving DecidableEq, Repr

/-- The calls a run makes that reach outside the process, with their arguments. -/
inductive Event where
  | randRead : Event
  | createTemp : String → Event
  | copy : String → Nat → Event
  | seek : String → Event
  | ffprobe : String → Event
  | ffmpeg : String → String → Event
  | openFile : String → Event
  | putObject : String → String → String → Event
  | updateVideo : Video → Event
  | remove : String → Event
  deriving DecidableEq, Repr

/-- The state a run acts on: the paths of the local files that exist, the persisted
video records, the objects in the store (bucket and key), and the calls made so
far. -/
structure World where
  fs : List String
  db : List Video
  store : List (String × String)
  trace : List Event
  deriving DecidableEq, Repr

/-- The request and the outcome of every call whose result the handler does not
compute itself: `auth.GetBearerToken`, `auth.ValidateJWT`, `uuid.Parse`, the
multipart body (its file parts by form key, or the error of reading it) and the
random suffix of the file the multipart reader may write, `mime.ParseMediaType`, `rand.Read`, `os.CreateTemp` (the random
suffix it picks), `io.Copy`, `Seek`, `ffprobe` with `json.Unmarshal`, `ffmpeg`,
`os.Open`, `PutObject` and `UpdateVideo`. -/
structure Env where
  getBearerToken : Except String String
  validateJWT : String → String → Except String Nat
  pathVideoID : String
  uuidParse : String → Except String Nat
  multipartBody : Except String (List (String × Upload))
  multipartTemp : String
  parseMediaType : String → Except String String
  randRead : Except String (List Nat)
  tempDir : String
  createTemp : Except String String
  copy : Except String Unit
  seek : Except String Unit
  ffprobe : ProbeOutcome
  ffmpeg : RemuxOutcome
  openFile : Except String Unit
  putObject : Except String Unit
  updateVideo : Except String Unit

/-- Append a call to the trace. -/
def World.log (w : World) (e : Event) : World := { w with trace := w.trace ++ [e] }

/-- Whether `multipart.Reader.ReadForm` writes a file part to disk: the parts are
read in order and kept in memory while they fit into what is left of `maxMemory`;
a part larger than what is left goes to a temporary file. -/
def spillsToDisk : Nat → List (String × Upload) → Bool
  | _, [] => false
  | m, p :: rest => if p.2.size > m then true else spillsToDisk (m - p.2.size) rest

/-- The call `r.ParseMultipartForm(maxMemory)` of `net/http`: the whole body is
parsed; up to `maxMemory` bytes of the file parts are kept in memory and the
remainder is written to a file `multipart-*` that `os.CreateTemp` makes in the
temporary directory.  That file is still there when the handler returns (the
server removes it afterwards).  The call fails on a body that is not multipart
data, or when the file cannot be created; `maxMemory` is no bound on the size of a
part. -/
def parseMultipartForm (env : Env) (maxMemory : Nat) (w : World) :
    World × Except String (List (String × Upload)) :=
  match env.multipartBody with
  | .error e => (w, .error e)
  | .ok form =>
    if spillsToDisk maxMemory form then
      let name := env.tempDir ++ "/multipart-" ++ env.multipartTemp
      if name ∈ w.fs then (w, .error "file exists")
      else ({ w with fs := name :: w.fs }, .ok form)
    else (w, .ok form)

/-- The call `r.FormFile(key)`: the first file part under the form key. -/
def formFile (form : List (String × Upload)) (key : String) : Except String Upload :=
  match form.find? (fun p => p.1 == key) with
  | some p => .ok p.2
  | none => .error "http: no such file"

/-- Modelled from the spec: `cfg.db.GetVideo` of the persistence collaborator,
`get(id) -> record`. -/
def getVideo (db : List Video) (videoID : Nat) : Except String Video :=
  match db.find? (fun v => v.ID == videoID) with
  | some v => .ok v
  | none => .error "sql: no rows in result set"

/-- Modelled from the spec: the effect on the stored records of a `cfg.db.UpdateVideo`
that succeeds, `update(record) -> success/failure`; one that fails leaves them as
they were. -/
def updateVideo (db : List Video) (video : Video) : List Video :=
  db.map (fun v => if v.ID = video.ID then video else v)

/-- The buffer `make([]byte, 32)` after `rand.Read` has filled it from the bytes
`src` of the entropy source. -/
def fillBuffer (n : Nat) (src : List Nat) : List Nat :=
  (List.range n).map (fun i => src.getD i 0 % 256)

/-- The call `os.CreateTemp("", pattern)`: a new file in the temporary directory, named by
the pattern followed by a random string; it fails when that file exists. -/
def osCreateTemp (env : Env) (pattern : String) (w : World) : World × Except String String :=
  let w := w.log (.createTemp pattern)
  match env.createTemp with
  | .error e => (w, .error e)
  | .ok suffix =>
    let name := env.tempDir ++ "/" ++ pattern ++ suffix
    if name ∈ w.fs then (w, .error "file exists")
    else ({ w with fs := name :: w.fs }, .ok name)

/-- The call `os.Remove(path)`; the handler drops its error. -/
def osRemove (path : String) (w : World) : World :=
  { w.log (.remove path) with fs := w.fs.filter (fun p => p ≠ path) }

/-! ## `handler_upload_video.go` -/

/-- The constant `maxSize`. -/
def maxSize : Nat := 1 <<< 30

/-- The local `videoName`: the token, a dot and the extension. -/
def videoName (randomBytes : List Nat) (extension : String) : String :=
  String.mk (rawURLEncode randomBytes) ++ "." ++ extension

/-- The local `videoKeyName`, `fmt.Sprintf("%s/%s", orientation, videoName)`. -/
def videoKeyName (orientation name : String) : String :=
  orientation ++ "/" ++ name

/-- The function `processVideoForFastStart`: the output path is the input path with the suffix
`.processing`; a failing `ffmpeg` gives `("", err)`. -/
def processVideoForFastStart (env : Env) (filePath : String) (w : World) :
    World × Except String String :=
  let outFilePath := filePath ++ ".processing"
  let w := w.log (.ffmpeg filePath outFilePath)
  match env.ffmpeg with
  | .failed leftover =>
    (if leftover then { w with fs := w.fs.insert outFilePath } else w, .error "exit status 1")
  | .ok => ({ w with fs := w.fs.insert outFilePath }, .ok outFilePath)

/-- Lines 119 to 146 of `handlerUploadVideo`, the part that runs under both
deferred removals. -/
def uploadProcessed (cfg : apiConfig) (env : Env) (video : Video)
    (mediaType orientation name fastVideoPath : String) (w : World) :
    World × GoResult Response :=
  let w := w.log (.openFile fastVideoPath)
  match env.openFile with
  | .error _ => (w, .ret (.error 500 "Couldn't open video file"))
  | .ok _ =>
    let key := videoKeyName orientation name
    let w := w.log (.putObject cfg.s3Bucket key mediaType)
    match env.putObject with
    | .error _ => (w, .ret (.error 500 "Couldn't upload video"))
    | .ok _ =>
      let w := { w with store := (cfg.s3Bucket, key) :: w.store }
      let videoURL := "https://" ++ cfg.s3CfDistribution ++ "/" ++ key
      let video := { video with VideoURL := some videoURL }
      let w := w.log (.updateVideo video)
      match env.updateVideo with
      | .error _ => (w, .ret (.error 500 "Couldn't update video"))
      | .ok _ => ({ w with db := updateVideo w.db video }, .ret (.json 200 video))

/-- Lines 94 to 117 of `handlerUploadVideo`, the part that runs under the first
deferred removal; `defer os.Remove(fastVideoPath)` is registered once the remux
has returned without error and runs when the rest has returned. -/
def uploadBuffered (cfg : apiConfig) (env : Env) (video : Video) (file : Upload)
    (mediaType name videoFile : String) (w : World) : World × GoResult Response :=
  let w := w.log (.copy videoFile file.size)
  match env.copy with
  | .error _ => (w, .ret (.error 500 "Couldn't copy file"))
  | .ok _ =>
    let w := w.log (.seek videoFile)
    match env.seek with
    | .error _ => (w, .ret (.error 500 "Couldn't seek file"))
    | .ok _ =>
      let w := w.log (.ffprobe videoFile)
      match getVideoOrientation env.ffprobe with
      | .panic m => (w, .panic m)
      | .ret (.error _) => (w, .ret (.error 500 "Couldn't get video orientation"))
      | .ret (.ok orientation) =>
        match processVideoForFastStart env videoFile w with
        | (w, .error _) => (w, .ret (.error 500 "Couldn't process video for fast start"))
        | (w, .ok fastVideoPath) =>
          let out := uploadProcessed cfg env video mediaType orientation name fastVideoPath w
          (osRemove fastVideoPath out.1, out.2)

/-- Lines 78 to 92 of `handlerUploadVideo`, reached once the media type has been
accepted.  `defer os.Remove(videoFile.Name())` is registered once the temporary
file exists and runs when the rest has returned or panicked. -/
def uploadAccepted (cfg : apiConfig) (env : Env) (video : Video) (file : Upload)
    (mediaType : String) (w : World) : World × GoResult Response :=
  let w := w.log .randRead
  match env.randRead with
  | .error _ => (w, .ret (.error 500 "Couldn't generate thumbnail name"))
  | .ok src =>
    let randomBytes := fillBuffer 32 src
    match (stringsSplit mediaType '/')[1]? with
    | none => (w, .panic "runtime error: index out of range [1]")
    | some extension =>
      let name := videoName randomBytes extension
      match osCreateTemp env name w with
      | (w, .error _) => (w, .ret (.error 500 "Couldn't create video file"))
      | (w, .ok videoFile) =>
        let out := uploadBuffered cfg env video file mediaType name videoFile w
        (osRemove videoFile out.1, out.2)

/-- The handler `handlerUploadVideo`: lines 22 to 76, then the pipeline.  `defer file.Close()`
acts on nothing the `World` records. -/
def handlerUploadVideo (cfg : apiConfig) (env : Env) (w : World) : World × GoResult Response :=
  match env.getBearerToken with
  | .error _ => (w, .ret (.error 401 "Unauthorized"))
  | .ok token =>
  match env.validateJWT token cfg.jwtSecret with
  | .error _ => (w, .ret (.error 401 "Unauthorized"))
  | .ok userID =>
  match env.uuidParse env.pathVideoID with
  | .error _ => (w, .ret (.error 400 "Invalid ID"))
  | .ok videoID =>
  match getVideo w.db videoID with
  | .error _ => (w, .ret (.error 404 "Video not found"))
  | .ok video =>
  if video.UserID ≠ userID then (w, .ret (.error 401 "Unauthorized"))
  else
  match parseMultipartForm env maxSize w with
  | (w, .error _) => (w, .ret (.error 400 "Couldn't parse multipart form"))
  | (w, .ok form) =>
  match formFile form "video" with
  | .error _ => (w, .ret (.error 400 "Couldn't get file"))
  | .ok file =>
  match env.parseMediaType file.contentType with
  | .error _ => (w, .ret (.error 400 "Couldn't parse media type"))
  | .ok mediaType =>
  if mediaType ≠ "video/mp4" then (w, .ret (.error 400 "Only mp4 allowed"))
  else uploadAccepted cfg env video file mediaType w

/-! ## `presign_videos.go` -/

/-- One call of `PresignGetObject`: bucket, key and the expiry in nanoseconds. -/
structure PresignCall where
  bucket : String
  key : String
  expires : Nat
  deriving DecidableEq, Repr

/-- The duration `1*time.Hour`, a `time.Duration` in nanoseconds. -/
def timeHour : Nat := 3600 * 1000000000

/-- What `dbVideoToSignedVideo` returns, the pair `(database.Video, error)`, and the
presigner calls it made. -/
structure Signed where
  video : Video
  err : Option String
  calls : List PresignCall
  deriving DecidableEq, Repr

/-- The function `generatePresignedURL`: the request URL of `PresignGetObject`, or its error. -/
def generatePresignedURL (presign : PresignCall → Except String String)
    (bucket key : String) (expireTime : Nat) : Except String String :=
  presign ⟨bucket, key, expireTime⟩

/-- The function `dbVideoToSignedVideo`: a video without a stored reference is
returned as it is; otherwise the reference is split at the commas and, when that
gives two parts, they are presigned as bucket and key for one hour. -/
def dbVideoToSignedVideo (presign : PresignCall → Except String String) (video : Video) :
    Signed :=
  match video.VideoURL with
  | none => ⟨video, none, []⟩
  | some url =>
    match stringsSplit url ',' with
    | [bucket, key] =>
      match generatePresignedURL presign bucket key timeHour with
      | .error e => ⟨Video.empty, some e, [⟨bucket, key, timeHour⟩]⟩
      | .ok signedURL => ⟨{ video with VideoURL := some signedURL }, none, [⟨bucket, key, timeHour⟩]⟩
    | _ => ⟨Video.empty, some "invalid video url", []⟩

/-! ## Reading a trace -/

/-- Position of a call in the pipeline: reading the random bytes, creating the
temporary file, copying, seeking, probing, remuxing, opening the output, putting
the object, updating the record.  The deferred removals have none. -/
def Event.stage : Event → Option Nat
  | .randRead => some 0
  | .createTemp _ => some 1
  | .copy _ _ => some 2
  | .seek _ => some 3
  | .ffprobe _ => some 4
  | .ffmpeg _ _ => some 5
  | .openFile _ => some 6
  | .putObject _ _ _ => some 7
  | .updateVideo _ => some 8
  | .remove _ => none

/-- The calls a run of the handler appends to the trace. -/
def newCalls (cfg : apiConfig) (env : Env) (w : World) : List Event :=
  (handlerUploadVideo cfg env w).1.trace.drop w.trace.length

/-- The pipeline positions of the calls of a run, in the order they were made. -/
def stages (cfg : apiConfig) (env : Env) (w : World) : List Nat :=
  (newCalls cfg env w).filterMap Event.stage

/-! ## Concrete runs -/

/-- A configuration for the concrete runs. -/
def demoCfg : apiConfig := ⟨"secret", "tubely", "d111.cloudfront.net"⟩

/-- A world with one video record, owned by user 7, and no files. -/
def demoWorld : World := ⟨[], [⟨1, 7, none⟩], [], []⟩

/-- A request by user 7 for video 1 carrying a 1024-byte `video/mp4` part whose
first stream is 1920 by 1080; every call succeeds.  The `Content-Type` headers of
the concrete runs are lower-case media types without parameters, which
`mime.ParseMediaType` gives back as they are. -/
def demoEnv : Env where
  getBearerToken := .ok "token"
  validateJWT := fun _ _ => .ok 7
  pathVideoID := "1"
  uuidParse := fun _ => .ok 1
  multipartBody := .ok [("video", ⟨1024, "video/mp4"⟩)]
  multipartTemp := "456"
  parseMediaType := fun h => .ok h
  randRead := .ok (List.replicate 32 0)
  tempDir := "/tmp"
  createTemp := .ok "123"
  copy := .ok ()
  seek := .ok ()
  ffprobe := .parsed ⟨[⟨1920, 1080⟩]⟩
  ffmpeg := .ok
  openFile := .ok ()
  putObject := .ok ()
  updateVideo := .ok ()


/-- The same request when `ffmpeg` exits with an error after it has begun to write
its output file. -/
def demoEnvRemuxFails : Env := { demoEnv with ffmpeg := .failed true }

/-- The same request when the object store refuses the put. -/
def demoEnvPutFails : Env := { demoEnv with putObject := .error "AccessDenied" }

/-- The same request with a file part of `2^30 + 1` bytes. -/
def demoEnvOversize : Env :=
  { demoEnv with multipartBody := .ok [("video", ⟨2 ^ 30 + 1, "video/mp4"⟩)] }

/-- The path of the temporary file in the concrete runs. -/
def demoTemp : String := "/tmp/AAAAAAAAAAAAAAAAAAAAAAAAAAAAAAAAAAAAAAAAAAA.mp4123"

/-- The object key in the concrete runs. -/
def demoKey : String := "landscape/AAAAAAAAAAAAAAAAAAAAAAAAAAAAAAAAAAAAAAAAAAA.mp4"

/-- Thirty-two bytes for the concrete encodings: 7, 44, 81, and so on in steps of
37 modulo 256. -/
def demoBytes : List Nat :=
  [7, 44, 81, 118, 155, 192, 229, 10, 47, 84, 121, 158, 195, 232, 13, 50,
   87, 124, 161, 198, 235, 16, 53, 90, 127, 164, 201, 238, 19, 56, 93, 255]

/-- The unpadded URL-safe base64 text of `demoBytes`, computed outside this
development by a standard base64 library. -/
def demoToken : String := "ByxRdpvA5QovVHmew-gNMld8ocbrEDVaf6TJ7hM4Xf8"

/-- A presigner that signs every request. -/
def demoPresign : PresignCall → Except String String :=
  fun c => .ok ("https://" ++ c.bucket ++ ".s3.amazonaws.com/" ++ c.key ++ "?X-Amz-Expires=3600")

/-! ## Arithmetic of `getVideoOrientation` -/

theorem goDiv_16_9 : goDiv 16 9 = 1 := by decide

theorem goDiv_9_16 : goDiv 9 16 = 0 := by decide

theorem goDiv_nonneg (w h : Int) (hw : 0 ≤ w) (hw2 : w < 2 ^ 63) (hh : 0 < h) :
    goDiv w h = w / h := by
  unfold goDiv wrapInt
  rw [Int.tdiv_eq_ediv hw (le_of_lt hh)]
  have h1 : 0 ≤ w / h := Int.ediv_nonneg hw (le_of_lt hh)
  have h2 : w / h ≤ w := Int.ediv_le_self _ hw
  omega

theorem getVideoOrientation_parsed_cons (s : Stream) (rest : List Stream) (h : s.Height ≠ 0) :
    getVideoOrientation (.parsed ⟨s :: rest⟩) =
      if goDiv s.Width s.Height = 1 then .ret (.ok "landscape")
      else if goDiv s.Width s.Height = 0 then .ret (.ok "portrait")
      else .ret (.ok "other") := by
  simp only [getVideoOrientation, h, if_false, goDiv_16_9, goDiv_9_16]

theorem getVideoOrientation_ok (probe : ProbeOutcome) (o : String)
    (h : getVideoOrientation probe = .ret (.ok o)) :
    o = "landscape" ∨ o = "portrait" ∨ o = "other" := by
  unfold getVideoOrientation at h
  split at h
  · simp at h
  · simp at h
  · split at h
    · simp at h
    · split at h
      · simp at h
      · simp only at h
        split at h
        · simp at h; simp [h]
        · split at h
          · simp at h; simp [h]
          · simp at h; simp [h]

/-! ## Splitting and the base64 alphabet -/

theorem length_splitOn (a : Char) : ∀ l : List Char, (l.splitOn a).length = l.count a + 1
  | [] => by simp [List.splitOn]
  | x :: xs => by
    have ih := length_splitOn a xs
    simp only [List.splitOn] at ih ⊢
    rw [List.splitOnP_cons, List.count_cons]
    by_cases hx : x = a
    · subst hx; simp [ih]
    · have : (x == a) = false := by simpa using hx
      simp [this, ih]

theorem encodeChar_mem (v : Nat) : encodeChar v ∈ encodeURL.data := by
  unfold encodeChar
  have h : v &&& 0x3F < 64 := by
    have := @Nat.and_le_right v 0x3F
    omega
  generalize v &&& 0x3F = i at h
  revert i
  decide

theorem rawURLEncode_mem :
    ∀ (src : List Nat) (c : Char), c ∈ rawURLEncode src → c ∈ encodeURL.data
  | b0 :: b1 :: b2 :: rest, c, h => by
    simp only [rawURLEncode, List.mem_cons] at h
    rcases h with h | h | h | h | h
    · exact h ▸ encodeChar_mem _
    · exact h ▸ encodeChar_mem _
    · exact h ▸ encodeChar_mem _
    · exact h ▸ encodeChar_mem _
    · exact rawURLEncode_mem rest c h
  | [b0, b1], c, h => by
    simp only [rawURLEncode, List.mem_cons, List.mem_singleton, List.not_mem_nil, or_false] at h
    rcases h with h | h | h
    · exact h ▸ encodeChar_mem _
    · exact h ▸ encodeChar_mem _
    · exact h ▸ encodeChar_mem _
  | [b0], c, h => by
    simp only [rawURLEncode, List.mem_cons, List.mem_singleton, List.not_mem_nil, or_false] at h
    rcases h with h | h
    · exact h ▸ encodeChar_mem _
    · exact h ▸ encodeChar_mem _
  | [], c, h => by simp [rawURLEncode] at h

theorem encodeURL_chars : ∀ c ∈ encodeURL.data,
    (('A' ≤ c ∧ c ≤ 'Z') ∨ ('a' ≤ c ∧ c ≤ 'z') ∨ ('0' ≤ c ∧ c ≤ '9') ∨ c = '-' ∨ c = '_') ∧
      c ≠ '=' ∧ c ≠ '+' ∧ c ≠ '/' ∧ c ≠ '.' ∧ c ≠ ',' := by
  decide

theorem extension_mp4 : (stringsSplit "video/mp4" '/')[1]? = some "mp4" := by decide

/-! ## The encoder against the definition of base64 -/

/-- C1: for a first stream of width `w` with `0 ≤ w` (a Go `int`, so `w < 2^63`) and
height `h > 0`, `getVideoOrientation` returns "landscape" exactly when
`h ≤ w < 2*h`, "portrait" exactly when `w < h`, and "other" exactly when
`2*h ≤ w`. -/
theorem orientation_classification (w h : Int) (rest : List Stream)
    (hw : 0 ≤ w) (hw2 : w < 2 ^ 63) (hh : 0 < h) :
    (getVideoOrientation (.parsed ⟨⟨w, h⟩ :: rest⟩) = .ret (.ok "landscape") ↔
        h ≤ w ∧ w < 2 * h) ∧
      (getVideoOrientation (.parsed ⟨⟨w, h⟩ :: rest⟩) = .ret (.ok "portrait") ↔ w < h) ∧
      (getVideoOrientation (.parsed ⟨⟨w, h⟩ :: rest⟩) = .ret (.ok "other") ↔ 2 * h ≤ w) := by
  have hne : (⟨w, h⟩ : Stream).Height ≠ 0 := by simp only; omega
  have hd := goDiv_nonneg w h hw hw2 hh
  have q0 : 0 ≤ w / h := Int.ediv_nonneg hw (le_of_lt hh)
  have a1 : 1 ≤ w / h ↔ 1 * h ≤ w := Int.le_ediv_iff_mul_le hh
  have a2 : 2 ≤ w / h ↔ 2 * h ≤ w := Int.le_ediv_iff_mul_le hh
  rw [getVideoOrientation_parsed_cons _ _ hne]
  simp only [hd]
  by_cases c1 : w / h = 1
  · simp [c1]; omega
  · by_cases c0 : w / h = 0
    · simp [c0]; omega
    · simp [c1, c0]; omega

/-- Witness of C1 at 1280 by 720. -/
theorem orientation_classification_witness :
    (0 : Int) ≤ 1280 ∧ (1280 : Int) < 2 ^ 63 ∧ (0 : Int) < 720 ∧
      (getVideoOrientation (.parsed ⟨[⟨1280, 720⟩]⟩) = .ret (.ok "landscape") ↔
        (720 : Int) ≤ 1280 ∧ (1280 : Int) < 2 * 720) :=
  ⟨by decide, by decide, by decide,
    (orientation_classification 1280 720 [] (by decide) (by decide) (by decide)).1⟩

/-- C2: at 1920 by 1080 `getVideoOrientation` returns "landscape" and at 1080 by
1920 it returns "portrait", as claimed; at 1000 by 1000 it returns "landscape",
not "other", because `1000 / 1000` and the constant `16 / 9` are both 1. -/
theorem orientation_examples :
    getVideoOrientation (.parsed ⟨[⟨1920, 1080⟩]⟩) = .ret (.ok "landscape") ∧
      getVideoOrientation (.parsed ⟨[⟨1080, 1920⟩]⟩) = .ret (.ok "portrait") ∧
      getVideoOrientation (.parsed ⟨[⟨1000, 1000⟩]⟩) = .ret (.ok "landscape") ∧
      getVideoOrientation (.parsed ⟨[⟨1000, 1000⟩]⟩) ≠ .ret (.ok "other") := by
  decide

/-- C10: on a parsed probe result `getVideoOrientation` returns the error
"no streams found" for an empty stream list; for a list whose first stream has a
non-zero height it returns one of "landscape", "portrait", "other" and no error;
for a first stream of height 0 it panics on the division, returning neither an
orientation nor an error; a stream without width and height decodes to 0 and 0
and is such a stream. -/
theorem orientation_outcomes (s : Stream) (rest : List Stream) :
    getVideoOrientation (.parsed ⟨[]⟩) = .ret (.error "no streams found") ∧
      (s.Height ≠ 0 →
        getVideoOrientation (.parsed ⟨s :: rest⟩) = .ret (.ok "landscape") ∨
        getVideoOrientation (.parsed ⟨s :: rest⟩) = .ret (.ok "portrait") ∨
        getVideoOrientation (.parsed ⟨s :: rest⟩) = .ret (.ok "other")) ∧
      (s.Height = 0 →
        getVideoOrientation (.parsed ⟨s :: rest⟩) =
            .panic "runtime error: integer divide by zero" ∧
          ∀ r, getVideoOrientation (.parsed ⟨s :: rest⟩) ≠ .ret r) ∧
      ({} : Stream) = ⟨0, 0⟩ ∧
      getVideoOrientation (.parsed ⟨({} : Stream) :: rest⟩) =
        .panic "runtime error: integer divide by zero" := by
  refine ⟨rfl, ?_, ?_, rfl, ?_⟩
  · intro h
    rw [getVideoOrientation_parsed_cons _ _ h]
    by_cases c1 : goDiv s.Width s.Height = 1
    · simp [c1]
    · by_cases c0 : goDiv s.Width s.Height = 0
      · simp [c0]
      · simp [c1, c0]
  · intro h
    simp [getVideoOrientation, h]
  · simp [getVideoOrientation]

/-- Witness of C10: a 640 by 480 first stream (non-zero height) and a 640 by 0
first stream (zero height). -/
theorem orientation_outcomes_witness :
    ((480 : Int) ≠ 0 ∧
      (getVideoOrientation (.parsed ⟨[⟨640, 480⟩]⟩) = .ret (.ok "landscape") ∨
        getVideoOrientation (.parsed ⟨[⟨640, 480⟩]⟩) = .ret (.ok "portrait") ∨
        getVideoOrientation (.parsed ⟨[⟨640, 480⟩]⟩) = .ret (.ok "other"))) ∧
      ((0 : Int) = 0 ∧
        getVideoOrientation (.parsed ⟨[⟨640, 0⟩]⟩) =
          .panic "runtime error: integer divide by zero") :=
  ⟨⟨by decide, (orientation_outcomes ⟨640, 480⟩ []).2.1 (by decide)⟩,
    ⟨rfl, ((orientation_outcomes ⟨640, 0⟩ []).2.2.1 rfl).1⟩⟩

/-! ## Facts about `stringsSplit` -/

theorem stringsSplit_length (s : String) (a : Char) :
    (stringsSplit s a).length = s.data.count a + 1 := by
  simp [stringsSplit, length_splitOn]

/-- The multipart reader touches nothing but the file system, and does not touch
that either when the file parts fit into `maxMemory`. -/
theorem parseMultipartForm_world (env : Env) (m : Nat) (w : World) :
    (parseMultipartForm env m w).1.trace = w.trace ∧
      (parseMultipartForm env m w).1.db = w.db ∧
      (parseMultipartForm env m w).1.store = w.store ∧
      (∀ form, (parseMultipartForm env m w).2 = .ok form → env.multipartBody = .ok form) ∧
      (∀ form, env.multipartBody = .ok form → spillsToDisk m form = false →
        parseMultipartForm env m w = (w, .ok form)) := by
  unfold parseMultipartForm
  rcases hb : env.multipartBody with e | form
  · simp
  · by_cases hs : spillsToDisk m form = true
    · by_cases hm : env.tempDir ++ "/multipart-" ++ env.multipartTemp ∈ w.fs
      · simp [hs, hm]
      · simp only [hs, hm, if_true, if_false]
        refine ⟨trivial, trivial, trivial, fun f hf => ?_, fun f hf hf2 => ?_⟩
        · simpa using hf
        · simp only [Except.ok.injEq] at hf
          subst hf
          simp [hs] at hf2
    · simp [hs]

/-- The handler either answers with a client error, having changed at most the
file system (by the file the multipart reader may write), or it has accepted the
media type `video/mp4` of the file part of a record the caller owns and runs the
pipeline in the world the multipart reader left. -/
theorem handler_cases (cfg : apiConfig) (env : Env) (w : World) :
    (∃ w1 c m, handlerUploadVideo cfg env w = (w1, .ret (.error c m)) ∧
        (c = 400 ∨ c = 401 ∨ c = 404) ∧
        w1.trace = w.trace ∧ w1.db = w.db ∧ w1.store = w.store) ∨
      (∃ token userID videoID video form file,
        env.getBearerToken = .ok token ∧
        env.validateJWT token cfg.jwtSecret = .ok userID ∧
        env.uuidParse env.pathVideoID = .ok videoID ∧
        getVideo w.db videoID = .ok video ∧
        video.UserID = userID ∧
        env.multipartBody = .ok form ∧
        formFile form "video" = .ok file ∧
        env.parseMediaType file.contentType = .ok "video/mp4" ∧
        handlerUploadVideo cfg env w =
          uploadAccepted cfg env video file "video/mp4" (parseMultipartForm env maxSize w).1) := by
  unfold handlerUploadVideo
  split
  · exact Or.inl ⟨_, _, _, rfl, by simp, rfl, rfl, rfl⟩
  split
  · exact Or.inl ⟨_, _, _, rfl, by simp, rfl, rfl, rfl⟩
  split
  · exact Or.inl ⟨_, _, _, rfl, by simp, rfl, rfl, rfl⟩
  split
  · exact Or.inl ⟨_, _, _, rfl, by simp, rfl, rfl, rfl⟩
  split
  · exact Or.inl ⟨_, _, _, rfl, by simp, rfl, rfl, rfl⟩
  rename_i token h1 _ userID h2 _ videoID h3 _ video h4 h5
  obtain ⟨ht, hd, hs, hbody, _⟩ := parseMultipartForm_world env maxSize w
  rcases hp : parseMultipartForm env maxSize w with ⟨w1, e | form⟩
  · rw [hp] at ht hd hs
    exact Or.inl ⟨_, _, _, rfl, by simp, ht, hd, hs⟩
  rw [hp] at ht hd hs hbody
  simp only
  split
  · exact Or.inl ⟨_, _, _, rfl, by simp, ht, hd, hs⟩
  split
  · exact Or.inl ⟨_, _, _, rfl, by simp, ht, hd, hs⟩
  split
  · exact Or.inl ⟨_, _, _, rfl, by simp, ht, hd, hs⟩
  rename_i _ file h7 _ mt h8 h9
  have hmt : mt = "video/mp4" := by simpa using h9
  subst hmt
  exact Or.inr ⟨token, userID, videoID, video, form, file, h1, h2, h3, h4, by simpa using h5,
    hbody form rfl, h7, h8, rfl⟩

/-- The calls of the pipeline come in the order of their stages, each at most once,
and none follows a call that failed. -/
theorem pipeline_trace (cfg : apiConfig) (env : Env) (video : Video) (file : Upload)
    (w : World) :
    (uploadAccepted cfg env video file "video/mp4" w).1.trace = w.trace ++ ((uploadAccepted cfg env video file "video/mp4" w).1.trace.drop w.trace.length) ∧
      ((uploadAccepted cfg env video file "video/mp4" w).1.trace.drop w.trace.length).filterMap Event.stage = List.range (((uploadAccepted cfg env video file "video/mp4" w).1.trace.drop w.trace.length).filterMap Event.stage).length ∧
      ((∃ e, env.randRead = .error e) → ∀ n ∈ ((uploadAccepted cfg env video file "video/mp4" w).1.trace.drop w.trace.length).filterMap Event.stage, n ≤ 0) ∧
      ((∃ e, env.createTemp = .error e) → ∀ n ∈ ((uploadAccepted cfg env video file "video/mp4" w).1.trace.drop w.trace.length).filterMap Event.stage, n ≤ 1) ∧
      ((∃ e, env.copy = .error e) → ∀ n ∈ ((uploadAccepted cfg env video file "video/mp4" w).1.trace.drop w.trace.length).filterMap Event.stage, n ≤ 2) ∧
      ((∃ e, env.seek = .error e) → ∀ n ∈ ((uploadAccepted cfg env video file "video/mp4" w).1.trace.drop w.trace.length).filterMap Event.stage, n ≤ 3) ∧
      ((∀ o, getVideoOrientation env.ffprobe ≠ .ret (.ok o)) →
        ∀ n ∈ ((uploadAccepted cfg env video file "video/mp4" w).1.trace.drop w.trace.length).filterMap Event.stage, n ≤ 4) ∧
      (env.ffmpeg ≠ .ok → ∀ n ∈ ((uploadAccepted cfg env video file "video/mp4" w).1.trace.drop w.trace.length).filterMap Event.stage, n ≤ 5) ∧
      ((∃ e, env.openFile = .error e) → ∀ n ∈ ((uploadAccepted cfg env video file "video/mp4" w).1.trace.drop w.trace.length).filterMap Event.stage, n ≤ 6) ∧
      ((∃ e, env.putObject = .error e) → ∀ n ∈ ((uploadAccepted cfg env video file "video/mp4" w).1.trace.drop w.trace.length).filterMap Event.stage, n ≤ 7) ∧
      (((uploadAccepted cfg env video file "video/mp4" w).1.trace.drop w.trace.length).filter (fun e => e.stage = some 8)).length ≤ 1 ∧
      ((∃ v, Event.updateVideo v ∈ ((uploadAccepted cfg env video file "video/mp4" w).1.trace.drop w.trace.length)) →
        (∃ o, getVideoOrientation env.ffprobe = .ret (.ok o)) ∧ env.ffmpeg = .ok ∧
          env.putObject = .ok ()) ∧
      ((∀ v, Event.updateVideo v ∉ ((uploadAccepted cfg env video file "video/mp4" w).1.trace.drop w.trace.length)) → (uploadAccepted cfg env video file "video/mp4" w).1.db = w.db) := by
  simp only [uploadAccepted, extension_mp4]
  rcases hr : env.randRead with e | src
  · simp [World.log, Event.stage, List.range_succ, osRemove]
  simp only [osCreateTemp, World.log]
  rcases hc : env.createTemp with e | suffix
  · simp [World.log, Event.stage, List.range_succ, osRemove]
  simp only []
  by_cases hm : env.tempDir ++ "/" ++ videoName (fillBuffer 32 src) "mp4" ++ suffix ∈ w.fs
  · simp [hm, World.log, Event.stage, List.range_succ, osRemove]
  simp only [hm, if_false, uploadBuffered]
  rcases hcp : env.copy with e | u
  · simp [World.log, Event.stage, List.range_succ, osRemove]
  rcases hsk : env.seek with e | u
  · simp [World.log, Event.stage, List.range_succ, osRemove]
  rcases hp : getVideoOrientation env.ffprobe with (e | o) | m
  · simp [World.log, Event.stage, List.range_succ, osRemove]
  swap
  · simp [World.log, Event.stage, List.range_succ, osRemove]
  simp only [processVideoForFastStart]
  rcases hf : env.ffmpeg with _ | lo
  swap
  · cases lo <;> simp [World.log, Event.stage, List.range_succ, osRemove]
  simp only [uploadProcessed]
  rcases ho : env.openFile with e | u
  · simp [World.log, Event.stage, List.range_succ, osRemove]
  rcases hpo : env.putObject with e | u
  · simp [World.log, Event.stage, List.range_succ, osRemove]
  rcases hu : env.updateVideo with e | u
  · simp [World.log, Event.stage, List.range_succ, osRemove]
  · simp [World.log, Event.stage, List.range_succ, osRemove]

/-- What the pipeline answers: an error always carries status 500, and a JSON answer
carries status 200 and the record with the URL built from the distribution and the
object key, which has been put under the bucket and written to the database. -/
theorem pipeline_response (cfg : apiConfig) (env : Env) (video : Video) (file : Upload)
    (w : World) :
    (∀ c m, (uploadAccepted cfg env video file "video/mp4" w).2 = .ret (.error c m) → c = 500) ∧
      (∀ c v, (uploadAccepted cfg env video file "video/mp4" w).2 = .ret (.json c v) →
        c = 200 ∧ ∃ src o, env.randRead = .ok src ∧
          getVideoOrientation env.ffprobe = .ret (.ok o) ∧
          v = { video with VideoURL := some ("https://" ++ cfg.s3CfDistribution ++ "/" ++
            videoKeyName o (videoName (fillBuffer 32 src) "mp4")) } ∧
          (uploadAccepted cfg env video file "video/mp4" w).1.db = updateVideo w.db v ∧
          (cfg.s3Bucket, videoKeyName o (videoName (fillBuffer 32 src) "mp4")) ∈ (uploadAccepted cfg env video file "video/mp4" w).1.store ∧
          Event.updateVideo v ∈ ((uploadAccepted cfg env video file "video/mp4" w).1.trace.drop w.trace.length) ∧
          Event.putObject cfg.s3Bucket (videoKeyName o (videoName (fillBuffer 32 src) "mp4"))
            "video/mp4" ∈ ((uploadAccepted cfg env video file "video/mp4" w).1.trace.drop w.trace.length)) := by
  simp only [uploadAccepted, extension_mp4]
  rcases hr : env.randRead with e | src
  · simp [World.log, Event.stage, List.range_succ, osRemove]
  simp only [osCreateTemp, World.log]
  rcases hc : env.createTemp with e | suffix
  · simp [World.log, Event.stage, List.range_succ, osRemove]
  simp only []
  by_cases hm : env.tempDir ++ "/" ++ videoName (fillBuffer 32 src) "mp4" ++ suffix ∈ w.fs
  · simp [hm, World.log, Event.stage, List.range_succ, osRemove]
  simp only [hm, if_false, uploadBuffered]
  rcases hcp : env.copy with e | u
  · simp [World.log, Event.stage, List.range_succ, osRemove]
  rcases hsk : env.seek with e | u
  · simp [World.log, Event.stage, List.range_succ, osRemove]
  rcases hp : getVideoOrientation env.ffprobe with (e | o) | m
  · simp [World.log, Event.stage, List.range_succ, osRemove]
  swap
  · simp [World.log, Event.stage, List.range_succ, osRemove]
  simp only [processVideoForFastStart]
  rcases hf : env.ffmpeg with _ | lo
  swap
  · cases lo <;> simp [World.log, Event.stage, List.range_succ, osRemove]
  simp only [uploadProcessed]
  rcases ho : env.openFile with e | u
  · simp [World.log, Event.stage, List.range_succ, osRemove]
  rcases hpo : env.putObject with e | u
  · simp [World.log, Event.stage, List.range_succ, osRemove]
  rcases hu : env.updateVideo with e | u
  · simp [World.log, Event.stage, List.range_succ, osRemove]
  · simp [World.log, Event.stage, List.range_succ, osRemove]

theorem getVideo_mem (db : List Video) (videoID : Nat) (video : Video)
    (h : getVideo db videoID = .ok video) : video ∈ db := by
  unfold getVideo at h
  split at h
  · rename_i v hv
    simp only [Except.ok.injEq] at h
    subst h
    exact List.mem_of_find?_eq_some hv
  · simp at h

theorem updateVideo_mem (db : List Video) (video v : Video) (hm : video ∈ db)
    (hid : v.ID = video.ID) : v ∈ updateVideo db v := by
  unfold updateVideo
  exact List.mem_map.mpr ⟨video, hm, by simp [hid]⟩

/-! ## Claims about the handler -/

/-- C4, at the run where `ffmpeg` fails after it has begun to write its output: the
handler answers 500, removes the buffered original, and returns with the output
file `<temp>.processing` still on disk; it never calls `os.Remove` on that path.
The file system was empty before the run. -/
theorem leftover_output_not_removed :
    demoWorld.fs = [] ∧
      (handlerUploadVideo demoCfg demoEnvRemuxFails demoWorld).2 =
        .ret (.error 500 "Couldn't process video for fast start") ∧
      newCalls demoCfg demoEnvRemuxFails demoWorld =
        [.randRead, .createTemp "AAAAAAAAAAAAAAAAAAAAAAAAAAAAAAAAAAAAAAAAAAA.mp4",
          .copy demoTemp 1024, .seek demoTemp, .ffprobe demoTemp,
          .ffmpeg demoTemp (demoTemp ++ ".processing"), .remove demoTemp] ∧
      (handlerUploadVideo demoCfg demoEnvRemuxFails demoWorld).1.fs =
        [demoTemp ++ ".processing"] := by
  decide

/-- C7, at a file part of `2^30 + 1` bytes, one more than `maxSize`: the handler
does not reject it; it copies all `2^30 + 1` bytes to the temporary file, runs
`ffprobe` and `ffmpeg`, puts the object and answers 200. -/
theorem oversize_upload_not_rejected :
    maxSize = 2 ^ 30 ∧
      formFile [("video", (⟨2 ^ 30 + 1, "video/mp4"⟩ : Upload))] "video" =
        .ok ⟨2 ^ 30 + 1, "video/mp4"⟩ ∧
      (handlerUploadVideo demoCfg demoEnvOversize demoWorld).2 =
        .ret (.json 200 ⟨1, 7, some ("https://d111.cloudfront.net/" ++ demoKey)⟩) ∧
      newCalls demoCfg demoEnvOversize demoWorld =
        [.randRead, .createTemp "AAAAAAAAAAAAAAAAAAAAAAAAAAAAAAAAAAAAAAAAAAA.mp4",
          .copy demoTemp (2 ^ 30 + 1), .seek demoTemp, .ffprobe demoTemp,
          .ffmpeg demoTemp (demoTemp ++ ".processing"), .openFile (demoTemp ++ ".processing"),
          .putObject "tubely" demoKey "video/mp4",
          .updateVideo ⟨1, 7, some ("https://d111.cloudfront.net/" ++ demoKey)⟩,
          .remove (demoTemp ++ ".processing"), .remove demoTemp] := by
  decide

/-- The status codes of the handler: 400, 401, 404 and 500 for errors, never 413. -/
theorem handler_status_codes (cfg : apiConfig) (env : Env) (w : World) (c : Nat) (m : String)
    (h : (handlerUploadVideo cfg env w).2 = .ret (.error c m)) :
    c = 400 ∨ c = 401 ∨ c = 404 ∨ c = 500 := by
  rcases handler_cases cfg env w with
    ⟨_, c1, m1, h1, hc, _⟩ | ⟨_, _, _, video, _, file, _, _, _, _, _, _, _, _, h1⟩
  · rw [h1] at h
    simp only [GoResult.ret.injEq, Response.error.injEq] at h
    obtain ⟨rfl, _⟩ := h
    omega
  · rw [h1] at h
    have := (pipeline_response cfg env video file _).1 c m h
    omega

/-! ## The object key -/

/-- The base64 text of the definition on the test vectors of RFC 4648 ("f", "fo",
"foo", "foob", "fooba", "foobar"), without padding, and on `demoBytes`. -/
theorem specBase64URL_vectors :
    specBase64URL [] = "".data ∧
      specBase64URL [102] = "Zg".data ∧
      specBase64URL [102, 111] = "Zm8".data ∧
      specBase64URL [102, 111, 111] = "Zm9v".data ∧
      specBase64URL [102, 111, 111, 98] = "Zm9vYg".data ∧
      specBase64URL [102, 111, 111, 98, 97] = "Zm9vYmE".data ∧
      specBase64URL [102, 111, 111, 98, 97, 114] = "Zm9vYmFy".data ∧
      specBase64URL [251, 255, 190] = "-_--".data ∧
      specBase64URL demoBytes = demoToken.data := by
  decide

/-- The order of the calls of a run, for the handler as a whole. -/
theorem handler_trace (cfg : apiConfig) (env : Env) (w : World) :
    (handlerUploadVideo cfg env w).1.trace = w.trace ++ newCalls cfg env w ∧
      stages cfg env w = List.range (stages cfg env w).length ∧
      ((∃ e, env.randRead = .error e) → ∀ n ∈ stages cfg env w, n ≤ 0) ∧
      ((∃ e, env.createTemp = .error e) → ∀ n ∈ stages cfg env w, n ≤ 1) ∧
      ((∃ e, env.copy = .error e) → ∀ n ∈ stages cfg env w, n ≤ 2) ∧
      ((∃ e, env.seek = .error e) → ∀ n ∈ stages cfg env w, n ≤ 3) ∧
      ((∀ o, getVideoOrientation env.ffprobe ≠ .ret (.ok o)) →
        ∀ n ∈ stages cfg env w, n ≤ 4) ∧
      (env.ffmpeg ≠ .ok → ∀ n ∈ stages cfg env w, n ≤ 5) ∧
      ((∃ e, env.openFile = .error e) → ∀ n ∈ stages cfg env w, n ≤ 6) ∧
      ((∃ e, env.putObject = .error e) → ∀ n ∈ stages cfg env w, n ≤ 7) ∧
      ((newCalls cfg env w).filter (fun e => e.stage = some 8)).length ≤ 1 ∧
      ((∃ v, Event.updateVideo v ∈ newCalls cfg env w) →
        (∃ o, getVideoOrientation env.ffprobe = .ret (.ok o)) ∧ env.ffmpeg = .ok ∧
          env.putObject = .ok ()) ∧
      ((∀ v, Event.updateVideo v ∉ newCalls cfg env w) →
        (handlerUploadVideo cfg env w).1.db = w.db) := by
  rcases handler_cases cfg env w with
    ⟨_, _, _, h1, _, ht1, hd1, _⟩ | ⟨_, _, _, video, _, file, _, _, _, _, _, _, _, _, h1⟩
  · have hn : newCalls cfg env w = [] := by simp [newCalls, h1, ht1]
    have hs : stages cfg env w = [] := by simp [stages, hn]
    simp [hn, hs, h1, ht1, hd1]
  · obtain ⟨ht, hd, _⟩ := parseMultipartForm_world env maxSize w
    have hp := pipeline_trace cfg env video file (parseMultipartForm env maxSize w).1
    rw [ht, hd] at hp
    unfold stages newCalls
    rw [h1]
    exact hp

/-- C5: the calls of a run of `handlerUploadVideo` are made in the fixed order of
their stages (0 random bytes; 1 to 3 buffering: create, copy, seek; 4 probe;
5 remux; 6 open; 7 object-store put; 8 metadata update), each at most once and
without gaps, and the run stops at the first call that fails: after a failed
stage no later stage is called.  `UpdateVideo` is called at most once, and only
when the probe, the remux and the put have succeeded; unless all three succeed,
and whenever `UpdateVideo` is not called, the persisted records are unchanged. -/
theorem pipeline_order (cfg : apiConfig) (env : Env) (w : World) :
    (handlerUploadVideo cfg env w).1.trace = w.trace ++ newCalls cfg env w ∧
      stages cfg env w = List.range (stages cfg env w).length ∧
      ((∃ e, env.randRead = .error e) → ∀ n ∈ stages cfg env w, n ≤ 0) ∧
      ((∃ e, env.createTemp = .error e) → ∀ n ∈ stages cfg env w, n ≤ 1) ∧
      ((∃ e, env.copy = .error e) → ∀ n ∈ stages cfg env w, n ≤ 2) ∧
      ((∃ e, env.seek = .error e) → ∀ n ∈ stages cfg env w, n ≤ 3) ∧
      ((∀ o, getVideoOrientation env.ffprobe ≠ .ret (.ok o)) →
        ∀ n ∈ stages cfg env w, n ≤ 4) ∧
      (env.ffmpeg ≠ .ok → ∀ n ∈ stages cfg env w, n ≤ 5) ∧
      ((∃ e, env.openFile = .error e) → ∀ n ∈ stages cfg env w, n ≤ 6) ∧
      ((∃ e, env.putObject = .error e) → ∀ n ∈ stages cfg env w, n ≤ 7) ∧
      ((newCalls cfg env w).filter (fun e => e.stage = some 8)).length ≤ 1 ∧
      ((∃ v, Event.updateVideo v ∈ newCalls cfg env w) →
        (∃ o, getVideoOrientation env.ffprobe = .ret (.ok o)) ∧ env.ffmpeg = .ok ∧
          env.putObject = .ok ()) ∧
      ((∀ v, Event.updateVideo v ∉ newCalls cfg env w) →
        (handlerUploadVideo cfg env w).1.db = w.db) ∧
      (¬((∃ o, getVideoOrientation env.ffprobe = .ret (.ok o)) ∧ env.ffmpeg = .ok ∧
          env.putObject = .ok ()) →
        (∀ v, Event.updateVideo v ∉ newCalls cfg env w) ∧
          (handlerUploadVideo cfg env w).1.db = w.db) := by
  have h := handler_trace cfg env w
  obtain ⟨h1, h2, h3, h4, h5, h6, h7, h8, h9, h10, h11, h12, h13⟩ := h
  refine ⟨h1, h2, h3, h4, h5, h6, h7, h8, h9, h10, h11, h12, h13, ?_⟩
  intro hfail
  have hno : ∀ v, Event.updateVideo v ∉ newCalls cfg env w :=
    fun v hv => hfail (h12 ⟨v, hv⟩)
  exact ⟨hno, h13 hno⟩

/-- Witness of C5: the run in which the object store refuses the put makes no call
of a stage after 7, never calls `UpdateVideo`, and leaves the records as they
were. -/
theorem pipeline_order_witness :
    (∃ e, demoEnvPutFails.putObject = .error e) ∧
      (∀ n ∈ stages demoCfg demoEnvPutFails demoWorld, n ≤ 7) ∧
      ¬((∃ o, getVideoOrientation demoEnvPutFails.ffprobe = .ret (.ok o)) ∧
        demoEnvPutFails.ffmpeg = .ok ∧ demoEnvPutFails.putObject = .ok ()) ∧
      (handlerUploadVideo demoCfg demoEnvPutFails demoWorld).1.db = demoWorld.db :=
  have hp : ∃ e, demoEnvPutFails.putObject = .error e := ⟨"AccessDenied", rfl⟩
  have hn : ¬((∃ o, getVideoOrientation demoEnvPutFails.ffprobe = .ret (.ok o)) ∧
      demoEnvPutFails.ffmpeg = .ok ∧ demoEnvPutFails.putObject = .ok ()) :=
    fun h => by
      have h3 := h.2.2
      simp [demoEnvPutFails] at h3
  ⟨hp, (pipeline_order demoCfg demoEnvPutFails demoWorld).2.2.2.2.2.2.2.2.2.1 hp, hn,
    ((pipeline_order demoCfg demoEnvPutFails demoWorld).2.2.2.2.2.2.2.2.2.2.2.2.2 hn).2⟩

/-- C9, at the run in which every call succeeds: with bucket `tubely` and key
`demoKey` the handler writes the reference `https://d111.cloudfront.net/` followed
by the key, not `tubely,` followed by the key, and `dbVideoToSignedVideo` applied
to the record it wrote fails with "invalid video url" without calling the
presigner. -/
theorem stored_reference_mismatch :
    (handlerUploadVideo demoCfg demoEnv demoWorld).2 =
        .ret (.json 200 ⟨1, 7, some ("https://d111.cloudfront.net/" ++ demoKey)⟩) ∧
      (handlerUploadVideo demoCfg demoEnv demoWorld).1.db =
        [⟨1, 7, some ("https://d111.cloudfront.net/" ++ demoKey)⟩] ∧
      (demoCfg.s3Bucket, demoKey) ∈ (handlerUploadVideo demoCfg demoEnv demoWorld).1.store ∧
      "https://d111.cloudfront.net/" ++ demoKey ≠ demoCfg.s3Bucket ++ "," ++ demoKey ∧
      dbVideoToSignedVideo demoPresign ⟨1, 7, some ("https://d111.cloudfront.net/" ++ demoKey)⟩ =
        ⟨Video.empty, some "invalid video url", []⟩ := by
  decide

theorem dbVideoToSignedVideo_invalid (presign : PresignCall → Except String String)
    (video : Video) (ref : String) (h : video.VideoURL = some ref)
    (hl : (stringsSplit ref ',').length ≠ 2) :
    dbVideoToSignedVideo presign video = ⟨Video.empty, some "invalid video url", []⟩ := by
  unfold dbVideoToSignedVideo
  rw [h]
  simp only
  split
  · rename_i heq
    rw [heq] at hl
    simp at hl
  · rfl

/-- The break shown for C9 is general: whenever an upload succeeds and the
distribution name holds no comma, the reference it wrote holds no comma either, and
`dbVideoToSignedVideo` fails on the record with "invalid video url". -/
theorem uploaded_reference_unreadable (cfg : apiConfig) (env : Env) (w : World) (c : Nat)
    (v : Video) (presign : PresignCall → Except String String)
    (h : (handlerUploadVideo cfg env w).2 = .ret (.json c v))
    (hd : ',' ∉ cfg.s3CfDistribution.data) :
    dbVideoToSignedVideo presign v = ⟨Video.empty, some "invalid video url", []⟩ := by
  rcases handler_cases cfg env w with
    ⟨_, _, _, h1, _⟩ | ⟨_, _, _, video, _, file, _, _, _, _, _, _, _, _, h1⟩
  · rw [h1] at h
    simp at h
  · rw [h1] at h
    obtain ⟨_, src, o, _, ho, hv, _⟩ := (pipeline_response cfg env video file _).2 c v h
    have hco : ',' ∉ o.data := by
      rcases getVideoOrientation_ok env.ffprobe o ho with h | h | h <;> subst h <;> decide
    have hct : ',' ∉ rawURLEncode (fillBuffer 32 src) :=
      fun hc => (encodeURL_chars _ (rawURLEncode_mem _ _ hc)).2.2.2.2.2 rfl
    have hurl : v.VideoURL = some ("https://" ++ cfg.s3CfDistribution ++ "/" ++
        videoKeyName o (videoName (fillBuffer 32 src) "mp4")) := by rw [hv]
    refine dbVideoToSignedVideo_invalid presign v _ hurl ?_
    rw [stringsSplit_length]
    have h0 : ("https://" ++ cfg.s3CfDistribution ++ "/" ++
        videoKeyName o (videoName (fillBuffer 32 src) "mp4")).data.count ',' = 0 := by
      rw [List.count_eq_zero]
      simp only [videoKeyName, videoName, String.data_append, List.mem_append, not_or]
      exact ⟨⟨⟨by decide, hd⟩, by decide⟩, ⟨hco, by decide⟩, ⟨hct, by decide⟩, by decide⟩
    omega

end VideoUpload
